import Mathlib

/-!
Shallow embedding of the image-resolution fallback chain of
`src/audio_int_gpt.py` (functions `_request_with_retries`, `_get_from_summary`,
`_get_from_media_list`, `_get_image_from_lang`, `get_wikipedia_image`,
`get_duckduckgo_image`, `get_bird_image`), together with theorems settling
the specification claims about that chain.

Modelling conventions:
- JSON/Python values are `JVal`; Python `int` and non-integer numbers are kept
  distinct because the code uses `isinstance(width, int)`, and Python `bool`
  is kept separate because it is an `int` instance with value 0/1.
- The network is an oracle `Net : List Ev → Req → Option Resp`: given the
  events so far (HTTP GETs issued and sleeps performed, in order) and a
  request, it yields `none` for a transport-level exception or `some` response.
  `Resp.js = none` models a body on which `res.json()` raises.
- Every embedded function threads the event trace explicitly and returns it;
  functions that can let a Python exception escape return `Except Unit JVal`
  (`.error ()` = an uncaught exception propagates), the others return `JVal`
  directly.  Python `None` is `JVal.null`.
- Request timeouts are not observable in this model and are omitted;
  the headers dicts are carried verbatim inside each request.
- `re` patterns and `urllib.parse.quote` are embedded directly; `\w` is
  modelled over ASCII alphanumerics plus underscore.
-/

set_option autoImplicit false

namespace AudioIntGpt

/-- A JSON (equivalently, the relevant fragment of Python) value. -/
inductive JVal where
  | null
  | boolv (b : Bool)
  | intv (n : Int)
  | floatv (q : ℚ)
  | str (s : String)
  | arr (xs : List JVal)
  | obj (kvs : List (String × JVal))

/-- Python truthiness of a `JVal`. -/
def JVal.truthy : JVal → Bool
  | .null => false
  | .boolv b => b
  | .intv n => n != 0
  | .floatv q => q != 0
  | .str s => s != ""
  | .arr xs => !xs.isEmpty
  | .obj kvs => !kvs.isEmpty

/-- Python `d.get(k)`: defined (with default `None`) on dicts, raising
`AttributeError` on every other value. -/
def JVal.get : JVal → String → Except Unit JVal
  | .obj kvs, k => .ok ((kvs.lookup k).getD .null)
  | _, _ => .error ()

/-- Python `a or b`. -/
def orJ (a b : JVal) : JVal := if a.truthy then a else b

/-- Python iteration `for x in v`: lists yield elements, strings yield
one-character strings, dicts yield their keys; other values raise
`TypeError`. -/
def JVal.iter : JVal → Except Unit (List JVal)
  | .arr xs => .ok xs
  | .str s => .ok (s.data.map fun c => .str (String.mk [c]))
  | .obj kvs => .ok (kvs.map fun kv => .str kv.1)
  | _ => .error ()

/-- Python `v[0]` as used on `results[0]`: first element of a list or string,
raising on anything else (including an int-keyed lookup in a JSON dict). -/
def JVal.index0 : JVal → Except Unit JVal
  | .arr (x :: _) => .ok x
  | .str s =>
    match s.data with
    | c :: _ => .ok (.str (String.mk [c]))
    | [] => .error ()
  | _ => .error ()

/-- Python `isinstance(v, int)` together with the integer value: holds for
ints and for bools (`True` counts as 1, `False` as 0). -/
def JVal.asInt : JVal → Option Int
  | .intv n => some n
  | .boolv b => some (if b then 1 else 0)
  | _ => none

/-- Python equality of `item.get("type")` against the string `"image"`. -/
def isImageTy : JVal → Bool
  | .str s => s == "image"
  | _ => false

/-! ### URL escaping (`urllib.parse.quote` with `safe=""`) -/

/-- UTF-8 encoding of one character, as byte values. -/
def utf8Bytes (c : Char) : List Nat :=
  let n := c.toNat
  if n < 0x80 then [n]
  else if n < 0x800 then
    [0xC0 + n / 0x40, 0x80 + n % 0x40]
  else if n < 0x10000 then
    [0xE0 + n / 0x1000, 0x80 + n / 0x40 % 0x40, 0x80 + n % 0x40]
  else
    [0xF0 + n / 0x40000, 0x80 + n / 0x1000 % 0x40, 0x80 + n / 0x40 % 0x40,
      0x80 + n % 0x40]

/-- The bytes `quote` never escapes: ASCII letters, digits, `_.-~`. -/
def isQuoteSafe (b : Nat) : Bool :=
  (0x41 ≤ b && b ≤ 0x5A) || (0x61 ≤ b && b ≤ 0x7A) || (0x30 ≤ b && b ≤ 0x39) ||
    b == 0x5F || b == 0x2E || b == 0x2D || b == 0x7E

/-- Uppercase hex digit. -/
def hexChar (n : Nat) : Char :=
  if n < 10 then Char.ofNat (48 + n) else Char.ofNat (55 + n)

/-- Percent-encoding of one byte. -/
def quoteByte (b : Nat) : String :=
  if isQuoteSafe b then String.mk [Char.ofNat b]
  else String.mk ['%', hexChar (b / 16), hexChar (b % 16)]

/-- Embeds `urllib.parse.quote(s, safe="")`. -/
def pyQuote (s : String) : String :=
  String.join (((s.data.map utf8Bytes).flatten).map quoteByte)

/-! ### Requests, events, responses, network oracle -/

/-- An HTTP GET request: URL plus the headers dict passed to `requests.get`. -/
structure Req where
  url : String
  headers : List (String × String)
  deriving DecidableEq

/-- An observable event: an issued GET attempt, or a `time.sleep`. -/
inductive Ev where
  | get (r : Req)
  | sleep (d : ℚ)
  deriving DecidableEq

/-- An HTTP response: status code, raw text body, and the result of
`res.json()` (`none` when `.json()` raises). -/
structure Resp where
  status : Nat
  text : String
  js : Option JVal

/-- The upstream world: given the events so far and a request, either a
transport-level exception (`none`) or a response. -/
abbrev Net := List Ev → Req → Option Resp

/-- Headers built in `_get_image_from_lang`. -/
def wikiHeaders : List (String × String) :=
  [("User-Agent", "audio_to_gpt/1.0 (+https://example.com)")]

/-- Headers built in `get_duckduckgo_image`. -/
def ddgHeaders : List (String × String) :=
  [("User-Agent", "Mozilla/5.0 (Macintosh; Intel Mac OS X 10_15_7) AppleWebKit/537.36 (KHTML, like Gecko) Chrome/124.0 Safari/537.36")]

/-- Wikipedia REST summary endpoint URL for a language and title. -/
def summaryUrl (lang title : String) : String :=
  "https://" ++ lang ++ ".wikipedia.org/api/rest_v1/page/summary/" ++ pyQuote title

/-- Wikipedia REST media-list endpoint URL for a language and title. -/
def mediaListUrl (lang title : String) : String :=
  "https://" ++ lang ++ ".wikipedia.org/api/rest_v1/page/media-list/" ++ pyQuote title

/-- DuckDuckGo HTML search page URL (expects the already-escaped query). -/
def searchUrl (q : String) : String :=
  "https://duckduckgo.com/?q=" ++ q ++ "&iax=images&ia=images"

/-- DuckDuckGo image-JSON endpoint URL (already-escaped query and token). -/
def apiUrl (q vqd : String) : String :=
  "https://duckduckgo.com/i.js?l=ja-jp&o=json&q=" ++ q ++ "&vqd=" ++ vqd ++ "&f=,,,&p=1"

/-- The summary request for a language and (unescaped) title. -/
def summaryReq (lang title : String) : Req :=
  ⟨summaryUrl lang title, wikiHeaders⟩

/-- The media-list request for a language and (unescaped) title. -/
def mediaListReq (lang title : String) : Req :=
  ⟨mediaListUrl lang title, wikiHeaders⟩

/-- The search-page request for an (escaped) query. -/
def searchReq (q : String) : Req :=
  ⟨searchUrl q, ddgHeaders⟩

/-- The image-JSON request for an (escaped) query and token. -/
def apiReq (q vqd : String) : Req :=
  ⟨apiUrl q vqd, ddgHeaders⟩

/-! ### `_request_with_retries` -/

/-- The `for attempt in range(retries + 1)` loop body of
`_request_with_retries`: issue the GET; a 200 response returns immediately,
any other status or a transport exception is swallowed; between failed
attempts (`attempt < retries`) sleep `0.4 * (attempt + 1)` seconds. -/
def retryGo (net : Net) (rq : Req) (retries : Nat) :
    List Nat → List Ev → Option Resp × List Ev
  | [], tr => (none, tr)
  | attempt :: rest, tr =>
    match net tr rq with
    | some r =>
      if r.status = 200 then (some r, tr ++ [Ev.get rq])
      else
        retryGo net rq retries rest
          (if attempt < retries then
            tr ++ [Ev.get rq, Ev.sleep (0.4 * ((attempt : ℚ) + 1))]
          else tr ++ [Ev.get rq])
    | none =>
      retryGo net rq retries rest
        (if attempt < retries then
          tr ++ [Ev.get rq, Ev.sleep (0.4 * ((attempt : ℚ) + 1))]
        else tr ++ [Ev.get rq])

/-- Embeds `_request_with_retries(url, headers, retries)`: up to `retries + 1`
attempts, success strictly on status 200, returns the response or `None`. -/
def _request_with_retries (net : Net) (rq : Req) (retries : Nat)
    (tr : List Ev) : Option Resp × List Ev :=
  retryGo net rq retries (List.range (retries + 1)) tr

/-! ### `_get_from_summary` -/

/-- The field extraction of `_get_from_summary` after a parsed body `data`:
`(data.get("thumbnail") or {}).get("source")`, else
`(data.get("originalimage") or {}).get("source")`. -/
def summaryExtract (data : JVal) : Except Unit JVal := do
  let t ← data.get "thumbnail"
  let thumb ← (orJ t (.obj [])).get "source"
  if thumb.truthy then return thumb
  let o ← data.get "originalimage"
  (orJ o (.obj [])).get "source"

/-- Embeds `_get_from_summary(title, lang, headers)`. -/
def _get_from_summary (net : Net) (title lang : String) (tr : List Ev) :
    Except Unit JVal × List Ev :=
  match _request_with_retries net (summaryReq lang title) 2 tr with
  | (none, tr1) => (.ok .null, tr1)
  | (some r, tr1) =>
    match r.js with
    | none => (.ok .null, tr1)
    | some d => (summaryExtract d, tr1)

/-! ### `_get_from_media_list` -/

/-- The inner `for s in srcset` loop: track `best`/`best_w`, updating when
`src` is truthy, `width` (after `or 0`) is an `int`, and `width > best_w`. -/
def srcsetLoop : List JVal → JVal → Int → Except Unit (JVal × Int)
  | [], best, bw => .ok (best, bw)
  | s :: rest, best, bw => do
    let src ← s.get "src"
    let w ← s.get "width"
    let width := orJ w (.intv 0)
    match src.truthy, width.asInt with
    | true, some n =>
      if bw < n then srcsetLoop rest src n else srcsetLoop rest best bw
    | _, _ => srcsetLoop rest best bw

/-- The outer `for item in items` loop of `_get_from_media_list`: skip
non-dict items and items whose `type` is not `"image"`; prefer
`original.source`; otherwise take the best srcset entry. -/
def mediaItemsLoop : List JVal → Except Unit JVal
  | [] => .ok .null
  | item :: rest => do
    match item with
    | JVal.obj _ =>
      let ty ← item.get "type"
      if !isImageTy ty then mediaItemsLoop rest
      else
        let o ← item.get "original"
        let original ← (orJ o (.obj [])).get "source"
        if original.truthy then return original
        let sraw ← item.get "srcset"
        let srcset ← (orJ sraw (.arr [])).iter
        let bp ← srcsetLoop srcset .null (-1)
        if bp.1.truthy then return bp.1
        mediaItemsLoop rest
    | _ => mediaItemsLoop rest

/-- The body of `_get_from_media_list` after a parsed body `data`:
`items = data.get("items") or []`, then the item loop. -/
def mediaExtract (data : JVal) : Except Unit JVal := do
  let itemsRaw ← data.get "items"
  let items ← (orJ itemsRaw (.arr [])).iter
  mediaItemsLoop items

/-- Embeds `_get_from_media_list(title, lang, headers)`. -/
def _get_from_media_list (net : Net) (title lang : String) (tr : List Ev) :
    Except Unit JVal × List Ev :=
  match _request_with_retries net (mediaListReq lang title) 2 tr with
  | (none, tr1) => (.ok .null, tr1)
  | (some r, tr1) =>
    match r.js with
    | none => (.ok .null, tr1)
    | some d => (mediaExtract d, tr1)

/-! ### `_get_image_from_lang`, `get_wikipedia_image` -/

/-- Embeds `_get_image_from_lang(title, lang)`: summary, then media-list. -/
def _get_image_from_lang (net : Net) (title lang : String) (tr : List Ev) :
    Except Unit JVal × List Ev :=
  match _get_from_summary net title lang tr with
  | (.error e, tr1) => (.error e, tr1)
  | (.ok img, tr1) =>
    if img.truthy then (.ok img, tr1)
    else _get_from_media_list net title lang tr1

/-- Embeds `get_wikipedia_image(species_name)`: `for lang in ("ja", "en")`, the
species name passed unmodified as the title, returning the first truthy
result, else `None`. -/
def get_wikipedia_image (net : Net) (species_name : String) (tr : List Ev) :
    Except Unit JVal × List Ev :=
  match _get_image_from_lang net species_name "ja" tr with
  | (.error e, tr1) => (.error e, tr1)
  | (.ok img, tr1) =>
    if img.truthy then (.ok img, tr1)
    else
      match _get_image_from_lang net species_name "en" tr1 with
      | (.error e, tr2) => (.error e, tr2)
      | (.ok img2, tr2) =>
        if img2.truthy then (.ok img2, tr2) else (.ok .null, tr2)

/-! ### `get_duckduckgo_image` -/

/-- The class `[\w-]` of the patterns: `\w` over ASCII, plus the hyphen. -/
def isWordChar (c : Char) : Bool := c.isAlphanum || c == '_' || c == '-'

/-- A single or double quote (the character class of the first pattern). -/
def isQuoteChar (c : Char) : Bool := c == Char.ofNat 39 || c == '"'

/-- Maximal run of word characters at the front of the list. -/
def takeWordRun : List Char → List Char × List Char
  | [] => ([], [])
  | c :: cs =>
    if isWordChar c then
      let p := takeWordRun cs
      (c :: p.1, p.2)
    else ([], c :: cs)

/-- Match of `vqd=['\"]([\w-]+)['\"]` at the head of the list. -/
def matchP1At : List Char → Option String
  | 'v' :: 'q' :: 'd' :: '=' :: q1 :: rest =>
    if isQuoteChar q1 then
      match takeWordRun rest with
      | ([], _) => none
      | (run, q2 :: _) => if isQuoteChar q2 then some (String.mk run) else none
      | (_, []) => none
    else none
  | _ => none

/-- Leftmost match of the first pattern (`re.search`). -/
def searchP1 : List Char → Option String
  | [] => none
  | c :: cs =>
    match matchP1At (c :: cs) with
    | some t => some t
    | none => searchP1 cs

/-- Match of `\"vqd\":\"([\w-]+)\"` at the head of the list. -/
def matchP2At : List Char → Option String
  | '"' :: 'v' :: 'q' :: 'd' :: '"' :: ':' :: '"' :: rest =>
    match takeWordRun rest with
    | ([], _) => none
    | (run, '"' :: _) => some (String.mk run)
    | (_, _) => none
  | _ => none

/-- Leftmost match of the second pattern (`re.search`). -/
def searchP2 : List Char → Option String
  | [] => none
  | c :: cs =>
    match matchP2At (c :: cs) with
    | some t => some t
    | none => searchP2 cs

/-- Token extraction from the search page body: first pattern, then the
alternative pattern, yielding `m.group(1)`. -/
def extractVqd (text : String) : Option String :=
  match searchP1 text.data with
  | some t => some t
  | none => searchP2 text.data

/-- Embeds `data.get("results") or []`; first entry; `get("image") or
get("thumbnail")`.  Any raise here is caught by the surrounding `except`. -/
def ddgParse (d : JVal) : Except Unit JVal := do
  let rraw ← d.get "results"
  let results := orJ rraw (.arr [])
  if !results.truthy then return JVal.null
  let first ← results.index0
  let img ← first.get "image"
  if img.truthy then return img
  first.get "thumbnail"

/-- The enclosing `try ... except Exception: return None`. -/
def catchAll : Except Unit JVal → JVal
  | .ok v => v
  | .error _ => .null

/-- Second stage of `get_duckduckgo_image`: the single, unretried fetch of
the image-JSON endpoint with the extracted token. -/
def ddgStage2 (net : Net) (q vqd : String) (tr : List Ev) : JVal × List Ev :=
  let rq := apiReq q vqd
  let tr1 := tr ++ [Ev.get rq]
  match net tr rq with
  | none => (.null, tr1)
  | some r2 =>
    if r2.status ≠ 200 then (.null, tr1)
    else
      match r2.js with
      | none => (.null, tr1)
      | some d => (catchAll (ddgParse d), tr1)

/-- Embeds `get_duckduckgo_image(query)`: fetch the HTML search page, extract the
`vqd` token, then fetch the image JSON; every failure yields `None` and the
whole body is wrapped in a catch-all handler, so it never raises. -/
def get_duckduckgo_image (net : Net) (query : String) (tr : List Ev) :
    JVal × List Ev :=
  let q := pyQuote query
  let rq := searchReq q
  let tr1 := tr ++ [Ev.get rq]
  match net tr rq with
  | none => (.null, tr1)
  | some r1 =>
    if r1.status ≠ 200 then (.null, tr1)
    else
      match extractVqd r1.text with
      | none => (.null, tr1)
      | some vqd => ddgStage2 net q vqd tr1

/-! ### `get_bird_image` -/

/-- Embeds `get_bird_image(species_name)`: Wikipedia first; DuckDuckGo when the
Wikipedia result is falsy. -/
def get_bird_image (net : Net) (species_name : String) (tr : List Ev) :
    Except Unit JVal × List Ev :=
  match get_wikipedia_image net species_name tr with
  | (.error e, tr1) => (.error e, tr1)
  | (.ok img, tr1) =>
    if img.truthy then (.ok img, tr1)
    else
      let p := get_duckduckgo_image net species_name tr1
      (.ok p.1, p.2)

/-! ### Observables on traces -/

/-- Number of GET attempts recorded in a trace. -/
def countGets (tr : List Ev) : Nat :=
  (tr.filter fun e => match e with | .get _ => true | .sleep _ => false).length

/-- The sleep durations recorded in a trace, in order. -/
def sleeps (tr : List Ev) : List ℚ :=
  tr.filterMap fun e => match e with | .sleep d => some d | .get _ => none

/-- The GET attempt at trace `tr` fails: transport exception or non-200. -/
def failsAt (net : Net) (rq : Req) (tr : List Ev) : Prop :=
  net tr rq = none ∨ ∃ r, net tr rq = some r ∧ r.status ≠ 200

theorem countGets_append (a b : List Ev) :
    countGets (a ++ b) = countGets a + countGets b := by
  simp [countGets, List.filter_append]

theorem sleeps_append (a b : List Ev) :
    sleeps (a ++ b) = sleeps a ++ sleeps b := by
  simp [sleeps, List.filterMap_append]

/-! ### Lemmas about `_request_with_retries` -/

theorem retryGo_gets_le (net : Net) (rq : Req) (k : Nat) :
    ∀ attempts tr, countGets (retryGo net rq k attempts tr).2
      ≤ countGets tr + attempts.length := by
  intro attempts
  induction attempts with
  | nil => intro tr; simp [retryGo]
  | cons a rest ih =>
    intro tr
    rw [retryGo]
    cases hn : net tr rq with
    | none =>
      refine le_trans (ih _) ?_
      by_cases hk : a < k <;>
        simp [hk, countGets_append, countGets] <;> omega
    | some r =>
      by_cases hs : r.status = 200
      · simp [hs, countGets_append, countGets]
      · simp only [hs, if_false]
        refine le_trans (ih _) ?_
        by_cases hk : a < k <;>
          simp [hk, countGets_append, countGets] <;> omega

theorem retryGo_some_status (net : Net) (rq : Req) (k : Nat) :
    ∀ attempts tr r, (retryGo net rq k attempts tr).1 = some r →
      r.status = 200 := by
  intro attempts
  induction attempts with
  | nil => intro tr r h; simp [retryGo] at h
  | cons a rest ih =>
    intro tr r h
    rw [retryGo] at h
    cases hn : net tr rq with
    | none => rw [hn] at h; exact ih _ r h
    | some r0 =>
      rw [hn] at h
      by_cases hs : r0.status = 200
      · simp [hs] at h; rw [← h]; exact hs
      · simp only [hs, if_false] at h; exact ih _ r h

/-- After two failed attempts (default policy), the loop stands at the third
attempt with the two GETs and the two backoff sleeps on the trace. -/
theorem retryTwoFailures (net : Net) (rq : Req)
    (h0 : failsAt net rq []) (h1 : failsAt net rq [Ev.get rq, Ev.sleep 0.4]) :
    _request_with_retries net rq 2 []
      = retryGo net rq 2 [2]
          [Ev.get rq, Ev.sleep 0.4, Ev.get rq, Ev.sleep 0.8] := by
  have e1 : List.range 3 = [0, 1, 2] := rfl
  have s1 : (0.4 : ℚ) * ((0 : Nat) + 1) = 0.4 := by norm_num
  have s2 : (0.4 : ℚ) * ((1 : Nat) + 1) = 0.8 := by norm_num
  rw [_request_with_retries, e1, retryGo]
  rcases h0 with h0 | ⟨r0, hr0, hs0⟩
  · rw [h0]
    simp only [show (0 : Nat) < 2 by norm_num, if_true, s1, List.nil_append]
    rw [retryGo]
    rcases h1 with h1 | ⟨r1, hr1, hs1⟩
    · rw [h1]
      simp only [show (1 : Nat) < 2 by norm_num, if_true, s2, List.append_assoc,
        List.cons_append, List.nil_append]
    · rw [hr1]
      simp only [hs1, if_false, show (1 : Nat) < 2 by norm_num, if_true, s2,
        List.append_assoc, List.cons_append, List.nil_append]
  · rw [hr0]
    simp only [hs0, if_false, show (0 : Nat) < 2 by norm_num, if_true, s1,
      List.nil_append]
    rw [retryGo]
    rcases h1 with h1 | ⟨r1, hr1, hs1⟩
    · rw [h1]
      simp only [show (1 : Nat) < 2 by norm_num, if_true, s2, List.append_assoc,
        List.cons_append, List.nil_append]
    · rw [hr1]
      simp only [hs1, if_false, show (1 : Nat) < 2 by norm_num, if_true, s2,
        List.append_assoc, List.cons_append, List.nil_append]

/-- C5: for every URL and headers, `_request_with_retries` makes at most
`retries + 1` GET attempts (3 by default), treats exactly HTTP 200 as success
and any other status or transport exception as a swallowed failed attempt,
returns the first successful response (and only 200 responses) or the
absence value without raising, and sleeps between failed attempts but not
after the last; in particular, if attempts 1 and 2 fail and attempt 3
returns 200, it returns that response having slept twice with increasing
delay (0.4 s then 0.8 s). -/
theorem claim_C5_retry_contract (net : Net) (rq : Req) :
    (∀ retries tr, countGets (_request_with_retries net rq retries tr).2
        ≤ countGets tr + (retries + 1))
    ∧ (∀ retries tr r, (_request_with_retries net rq retries tr).1 = some r →
        r.status = 200)
    ∧ (∀ retries tr r, net tr rq = some r → r.status = 200 →
        _request_with_retries net rq retries tr = (some r, tr ++ [Ev.get rq]))
    ∧ (∀ r, failsAt net rq [] →
        failsAt net rq [Ev.get rq, Ev.sleep 0.4] →
        net [Ev.get rq, Ev.sleep 0.4, Ev.get rq, Ev.sleep 0.8] rq = some r →
        r.status = 200 →
        _request_with_retries net rq 2 []
          = (some r, [Ev.get rq, Ev.sleep 0.4, Ev.get rq, Ev.sleep 0.8,
              Ev.get rq])) := by
  refine ⟨?_, ?_, ?_, ?_⟩
  · intro retries tr
    have h := retryGo_gets_le net rq retries (List.range (retries + 1)) tr
    simpa [_request_with_retries] using h
  · intro retries tr r h
    exact retryGo_some_status net rq retries _ tr r h
  · intro retries tr r hn hs
    rw [_request_with_retries, List.range_succ_eq_map, retryGo, hn]
    simp [hs]
  · intro r h0 h1 h2 hs
    rw [retryTwoFailures net rq h0 h1, retryGo, h2]
    simp [hs]

/-- Concrete run of the C5 scenario: a network that fails the first two
attempts and answers 200 on the third. -/
def netTwoFailures : Net := fun tr _ =>
  if tr.length < 4 then none else some ⟨200, "", none⟩

/-- A request used by concrete retry runs. -/
def plainReq : Req := ⟨"https://example.org/x", []⟩

theorem claim_C5_retry_contract_witness :
    _request_with_retries netTwoFailures plainReq 2 []
      = (some ⟨200, "", none⟩,
          [Ev.get plainReq, Ev.sleep 0.4, Ev.get plainReq, Ev.sleep 0.8,
            Ev.get plainReq]) :=
  (claim_C5_retry_contract netTwoFailures plainReq).2.2.2 ⟨200, "", none⟩
    (Or.inl rfl) (Or.inl rfl) rfl rfl

/-! ### Lemmas about sleeps in the scrape fallback -/

theorem sleeps_ddgStage2 (net : Net) (q vqd : String) (tr : List Ev) :
    sleeps (ddgStage2 net q vqd tr).2 = sleeps tr := by
  rw [ddgStage2]
  cases net tr (apiReq q vqd) with
  | none => simp [sleeps_append, sleeps]
  | some r2 =>
    by_cases h2 : r2.status ≠ 200
    · simp [h2, sleeps_append, sleeps]
    · rcases hjs : r2.js with _ | d <;>
        simp [h2, hjs, sleeps_append, sleeps]

theorem sleeps_ddg (net : Net) (query : String) (tr : List Ev) :
    sleeps (get_duckduckgo_image net query tr).2 = sleeps tr := by
  rw [get_duckduckgo_image]
  cases net tr (searchReq (pyQuote query)) with
  | none => simp [sleeps_append, sleeps]
  | some r1 =>
    by_cases h1 : r1.status ≠ 200
    · simp [h1, sleeps_append, sleeps]
    · rcases hv : extractVqd r1.text with _ | vqd
      · simp [h1, hv, sleeps_append, sleeps]
      · simp only [h1, hv, if_false]
        rw [sleeps_ddgStage2, sleeps_append]
        simp [sleeps]

/-- C6: under the default retry policy the backoff slept between failed
encyclopedia-fetch attempts is `0.4 * (attempt_index + 1)` seconds with the
0-based index the code uses, so the delays actually slept across the 3
default attempts are exactly 0.4 s after the first failed attempt and 0.8 s
after the second (whether the third attempt succeeds or fails); and the
scrape fallback's fetches perform no backoff sleep at all. -/
theorem claim_C6_backoff_delays (net : Net) (rq : Req) :
    (∀ r, failsAt net rq [] →
        failsAt net rq [Ev.get rq, Ev.sleep 0.4] →
        net [Ev.get rq, Ev.sleep 0.4, Ev.get rq, Ev.sleep 0.8] rq = some r →
        r.status = 200 →
        sleeps (_request_with_retries net rq 2 []).2 = [0.4, 0.8])
    ∧ (failsAt net rq [] →
        failsAt net rq [Ev.get rq, Ev.sleep 0.4] →
        failsAt net rq [Ev.get rq, Ev.sleep 0.4, Ev.get rq, Ev.sleep 0.8] →
        sleeps (_request_with_retries net rq 2 []).2 = [0.4, 0.8])
    ∧ (∀ query tr, sleeps (get_duckduckgo_image net query tr).2 = sleeps tr) := by
  refine ⟨?_, ?_, fun query tr => sleeps_ddg net query tr⟩
  · intro r h0 h1 h2 hs
    rw [retryTwoFailures net rq h0 h1, retryGo, h2]
    simp [hs, sleeps]
  · intro h0 h1 h2
    rw [retryTwoFailures net rq h0 h1, retryGo]
    rcases h2 with h2 | ⟨r2, hr2, hs2⟩
    · rw [h2]
      simp [retryGo, sleeps]
    · rw [hr2]
      simp [hs2, retryGo, sleeps]

/-- Concrete run of the C6 scenario: every attempt fails with a transport
exception, and the two backoff delays 0.4 s and 0.8 s are slept. -/
def netAllFail : Net := fun _ _ => none

theorem claim_C6_backoff_delays_witness :
    sleeps (_request_with_retries netAllFail plainReq 2 []).2 = [0.4, 0.8] :=
  (claim_C6_backoff_delays netAllFail plainReq).2.1
    (Or.inl rfl) (Or.inl rfl) (Or.inl rfl)

/-- C8: the summary lookup treats a failed fetch or a JSON-parse failure as
a miss; on a parsed body it returns the truthy `thumbnail.source` when there
is one, falls back to `originalimage.source` when the thumbnail is absent,
and returns absence when both fields are absent. -/
theorem claim_C8_summary_semantics (net : Net) (title lang : String) :
    (∀ tr tr1,
        _request_with_retries net (summaryReq lang title) 2 tr = (none, tr1) →
        _get_from_summary net title lang tr = (.ok .null, tr1))
    ∧ (∀ tr tr1 r,
        _request_with_retries net (summaryReq lang title) 2 tr = (some r, tr1) →
        r.js = none → _get_from_summary net title lang tr = (.ok .null, tr1))
    ∧ (∀ tr tr1 r d,
        _request_with_retries net (summaryReq lang title) 2 tr = (some r, tr1) →
        r.js = some d →
        _get_from_summary net title lang tr = (summaryExtract d, tr1))
    ∧ (∀ kvs t u, kvs.lookup "thumbnail" = some (JVal.obj t) →
        t.lookup "source" = some u → u.truthy →
        summaryExtract (.obj kvs) = .ok u)
    ∧ (∀ kvs o u, kvs.lookup "thumbnail" = none →
        kvs.lookup "originalimage" = some (JVal.obj o) →
        o.lookup "source" = some u →
        summaryExtract (.obj kvs) = .ok u)
    ∧ (∀ kvs, kvs.lookup "thumbnail" = none →
        kvs.lookup "originalimage" = none →
        summaryExtract (.obj kvs) = .ok .null) := by
  refine ⟨?_, ?_, ?_, ?_, ?_, ?_⟩
  · intro tr tr1 h
    rw [_get_from_summary, h]
  · intro tr tr1 r h hjs
    rw [_get_from_summary, h]
    simp [hjs]
  · intro tr tr1 r d h hjs
    rw [_get_from_summary, h]
    simp [hjs]
  · intro kvs t u h1 h2 h3
    have ht : (JVal.obj t).truthy := by
      cases t with
      | nil => simp at h2
      | cons a l => simp [JVal.truthy]
    simp [summaryExtract, bind, Except.bind, pure, Except.pure, JVal.get,
      h1, orJ, ht, h2, h3]
  · intro kvs o u h1 h2 h3
    have ho : (!o.isEmpty) = true := by
      cases o with
      | nil => simp at h3
      | cons a l => simp
    simp [summaryExtract, bind, Except.bind, pure, Except.pure, JVal.get,
      h1, h2, orJ, ho, h3, JVal.truthy]
  · intro kvs h1 h2
    simp [summaryExtract, bind, Except.bind, pure, Except.pure, JVal.get,
      h1, h2, orJ, JVal.truthy]

/-- Concrete run of C8: a body whose thumbnail source is a nonempty URL. -/
theorem claim_C8_summary_semantics_witness :
    summaryExtract
        (.obj [("thumbnail", .obj [("source", JVal.str "http://t.example/a.jpg")])])
      = .ok (JVal.str "http://t.example/a.jpg") :=
  (claim_C8_summary_semantics netAllFail "X" "ja").2.2.2.1
    [("thumbnail", .obj [("source", JVal.str "http://t.example/a.jpg")])]
    [("source", JVal.str "http://t.example/a.jpg")]
    (JVal.str "http://t.example/a.jpg") rfl rfl (by decide)

/-! ### Lemmas about `_get_from_media_list` -/

/-- A well-shaped srcset variant: a string `src` and an integer `width`. -/
def cleanVariant (p : String × Int) : JVal :=
  .obj [("src", .str p.1), ("width", .intv p.2)]

theorem orJ_intv (n : Int) : orJ (.intv n) (.intv 0) = .intv n := by
  by_cases h : n = 0 <;> simp [orJ, JVal.truthy, h]

theorem orJ_null (b : JVal) : orJ .null b = b := by
  simp [orJ, JVal.truthy]

theorem truthy_null : JVal.null.truthy = false := rfl

theorem srcsetLoop_clean_cons (p : String × Int) (rest : List JVal)
    (best : JVal) (bw : Int) (hp : p.1 ≠ "") :
    srcsetLoop (cleanVariant p :: rest) best bw
      = if bw < p.2 then srcsetLoop rest (.str p.1) p.2
        else srcsetLoop rest best bw := by
  have hs : (JVal.str p.1).truthy = true := by simp [JVal.truthy, hp]
  rw [srcsetLoop]
  simp [cleanVariant, JVal.get, bind, Except.bind, orJ_intv, hs, JVal.asInt,
    List.lookup]

/-- Running `srcsetLoop` over well-shaped variants either keeps the accumulator
(when no variant beats it) or returns the first variant attaining the
maximal width above the accumulator. -/
theorem srcsetLoop_max (ps : List (String × Int)) :
    ∀ (best : JVal) (bw : Int), (∀ p ∈ ps, p.1 ≠ "") →
      (srcsetLoop (ps.map cleanVariant) best bw = .ok (best, bw)
          ∧ ∀ p ∈ ps, p.2 ≤ bw)
      ∨ ∃ p ∈ ps, srcsetLoop (ps.map cleanVariant) best bw
            = .ok (.str p.1, p.2) ∧ bw < p.2 ∧ ∀ q ∈ ps, q.2 ≤ p.2 := by
  induction ps with
  | nil => intro best bw _; left; exact ⟨rfl, by simp⟩
  | cons p rest ih =>
    intro best bw hcl
    have hp := hcl p (by simp)
    have hrest : ∀ q ∈ rest, q.1 ≠ "" := fun q hq => hcl q (by simp [hq])
    rw [List.map_cons, srcsetLoop_clean_cons p _ best bw hp]
    by_cases hlt : bw < p.2
    · rw [if_pos hlt]
      rcases ih (.str p.1) p.2 hrest with ⟨heq, hle⟩ | ⟨q, hq, heq, hlt2, hle⟩
      · right
        refine ⟨p, by simp, heq, hlt, ?_⟩
        intro q hq
        rcases List.mem_cons.1 hq with rfl | hq
        · exact le_refl _
        · exact hle q hq
      · right
        refine ⟨q, by simp [hq], heq, lt_trans hlt hlt2, ?_⟩
        intro q2 hq2
        rcases List.mem_cons.1 hq2 with rfl | hq2
        · exact le_of_lt hlt2
        · exact hle q2 hq2
    · rw [if_neg hlt]
      rcases ih best bw hrest with ⟨heq, hle⟩ | ⟨q, hq, heq, hlt2, hle⟩
      · left
        refine ⟨heq, ?_⟩
        intro q hq
        rcases List.mem_cons.1 hq with rfl | hq
        · omega
        · exact hle q hq
      · right
        refine ⟨q, by simp [hq], heq, hlt2, ?_⟩
        intro q2 hq2
        rcases List.mem_cons.1 hq2 with rfl | hq2
        · omega
        · exact hle q2 hq2

theorem mediaItemsLoop_skip_nonimage (kvs : List (String × JVal))
    (rest : List JVal)
    (h : isImageTy ((kvs.lookup "type").getD .null) = false) :
    mediaItemsLoop (.obj kvs :: rest) = mediaItemsLoop rest := by
  rw [mediaItemsLoop]
  simp [JVal.get, bind, Except.bind, h]

theorem mediaItemsLoop_original (kvs t : List (String × JVal))
    (rest : List JVal) (u : JVal)
    (hty : isImageTy ((kvs.lookup "type").getD .null) = true)
    (ho : kvs.lookup "original" = some (.obj t))
    (hsrc : t.lookup "source" = some u) (hu : u.truthy) :
    mediaItemsLoop (.obj kvs :: rest) = .ok u := by
  have ht : orJ (.obj t) (.obj []) = JVal.obj t := by
    cases t with
    | nil => simp at hsrc
    | cons a l => simp [orJ, JVal.truthy]
  rw [mediaItemsLoop]
  simp [JVal.get, bind, Except.bind, pure, Except.pure, hty, ho, ht, hsrc, hu]

theorem mediaItemsLoop_srcset_max (kvs : List (String × JVal))
    (rest : List JVal) (ps : List (String × Int))
    (hty : isImageTy ((kvs.lookup "type").getD .null) = true)
    (ho : kvs.lookup "original" = none)
    (hs : kvs.lookup "srcset" = some (.arr (ps.map cleanVariant)))
    (hne : ps ≠ []) (hcl : ∀ p ∈ ps, p.1 ≠ "" ∧ 0 ≤ p.2) :
    ∃ p ∈ ps, mediaItemsLoop (.obj kvs :: rest) = .ok (.str p.1)
      ∧ ∀ q ∈ ps, q.2 ≤ p.2 := by
  have hmapne : ps.map cleanVariant ≠ [] := by
    cases ps with
    | nil => exact absurd rfl hne
    | cons a l => simp
  have harr : (JVal.arr (ps.map cleanVariant)).truthy = true := by
    simp [JVal.truthy, hmapne]
  rcases srcsetLoop_max ps .null (-1) (fun p hp => (hcl p hp).1)
    with ⟨_, hle⟩ | ⟨p, hp, heq, _, hle⟩
  · cases ps with
    | nil => exact absurd rfl hne
    | cons a l =>
      have := hle a (by simp)
      have := (hcl a (by simp)).2
      omega
  · refine ⟨p, hp, ?_, hle⟩
    have hptr : (JVal.str p.1).truthy = true := by
      simp [JVal.truthy, (hcl p hp).1]
    have horj : orJ (.arr (ps.map cleanVariant)) (.arr [])
        = JVal.arr (ps.map cleanVariant) := by
      simp [orJ, harr]
    rw [mediaItemsLoop]
    simp [JVal.get, bind, Except.bind, pure, Except.pure, hty, ho, hs, horj,
      JVal.iter, heq, hptr, orJ_null, truthy_null]

theorem mediaItemsLoop_no_usable (kvs : List (String × JVal))
    (rest : List JVal)
    (hty : isImageTy ((kvs.lookup "type").getD .null) = true)
    (ho : kvs.lookup "original" = none)
    (hs : kvs.lookup "srcset" = none) :
    mediaItemsLoop (.obj kvs :: rest) = mediaItemsLoop rest := by
  rw [mediaItemsLoop]
  simp [JVal.get, bind, Except.bind, pure, Except.pure, hty, ho, hs, orJ,
    JVal.truthy, JVal.iter, srcsetLoop]

/-- The media-list body of the claim's concrete example: two image items,
the first without `original.source` but with a two-variant srcset. -/
def mediaExampleC4 : JVal :=
  .obj [("items", .arr [
    .obj [("type", .str "image"),
      ("srcset", .arr [
        .obj [("src", .str "a"), ("width", .intv 100)],
        .obj [("src", .str "b"), ("width", .intv 300)]])],
    .obj [("type", .str "image"),
      ("original", .obj [("source", .str "c")])]])]

/-- C4: the media-list resolver skips items whose declared type is not
`"image"`; for the first qualifying image item it prefers `original.source`,
and otherwise picks from the srcset a variant of maximal declared width;
it yields absence when no item yields a usable URL; and on the claim's
concrete two-item example it returns `"b"`. -/
theorem claim_C4_media_list :
    (∀ kvs rest, isImageTy ((kvs.lookup "type").getD .null) = false →
        mediaItemsLoop (.obj kvs :: rest) = mediaItemsLoop rest)
    ∧ (∀ kvs t rest u, isImageTy ((kvs.lookup "type").getD .null) = true →
        kvs.lookup "original" = some (.obj t) →
        t.lookup "source" = some u → u.truthy →
        mediaItemsLoop (.obj kvs :: rest) = .ok u)
    ∧ (∀ kvs rest ps, isImageTy ((kvs.lookup "type").getD .null) = true →
        kvs.lookup "original" = none →
        kvs.lookup "srcset" = some (.arr (ps.map cleanVariant)) →
        ps ≠ [] → (∀ p ∈ ps, p.1 ≠ "" ∧ 0 ≤ p.2) →
        ∃ p ∈ ps, mediaItemsLoop (.obj kvs :: rest) = .ok (.str p.1)
          ∧ ∀ q ∈ ps, q.2 ≤ p.2)
    ∧ mediaItemsLoop [] = .ok .null
    ∧ mediaExtract mediaExampleC4 = .ok (.str "b") := by
  refine ⟨mediaItemsLoop_skip_nonimage, ?_, ?_, rfl, rfl⟩
  · intro kvs t rest u hty ho hsrc hu
    exact mediaItemsLoop_original kvs t rest u hty ho hsrc hu
  · intro kvs rest ps hty ho hs hne hcl
    exact mediaItemsLoop_srcset_max kvs rest ps hty ho hs hne hcl

/-- Concrete run of C4: an image item with a truthy `original.source` is
returned as-is. -/
theorem claim_C4_media_list_witness :
    mediaItemsLoop
        [.obj [("type", JVal.str "image"),
          ("original", .obj [("source", JVal.str "http://orig.example/i.png")])]]
      = .ok (JVal.str "http://orig.example/i.png") :=
  claim_C4_media_list.2.1
    [("type", JVal.str "image"),
      ("original", .obj [("source", JVal.str "http://orig.example/i.png")])]
    [("source", JVal.str "http://orig.example/i.png")] []
    (JVal.str "http://orig.example/i.png") rfl rfl rfl (by decide)

/-! ### C10: srcset eligibility details -/

theorem orJ_truthy (a b : JVal) (h : a.truthy = true) : orJ a b = a := by
  simp [orJ, h]

/-- A media-list body whose only srcset variant declares the float width
`0.0`. -/
def mediaFloatWidth : JVal :=
  .obj [("items", .arr [
    .obj [("type", .str "image"),
      ("srcset", .arr [.obj [("src", .str "a"), ("width", .floatv 0)]])]])]

/-- Counterexample to C10 as stated: C10 says a variant whose declared width
is a non-integer value such as a float is never selected, but a variant
whose width is the float `0.0` is falsy, so `or 0` replaces it by the int 0
before the `isinstance` test, and the variant is selected: its `src` is
returned. -/
theorem claim_C10_counterexample :
    mediaExtract mediaFloatWidth = .ok (.str "a") := rfl

/-- C10 (amended): a srcset variant is eligible only if its `src` is truthy
and its width, after the `or 0` coercion, is a Python int: a missing width
counts as 0, and so does any falsy width (such as the float `0.0`); a truthy
non-integer width (e.g. a numeric string) is never selected; a falsy `src`
is never selected; and the comparison being strict, among eligible variants
sharing the maximal width the earliest in list order is kept. -/
theorem claim_C10_srcset_eligibility :
    (∀ kvs rest best bw u, List.lookup "src" kvs = some u →
        List.lookup "width" kvs = none →
        srcsetLoop (.obj kvs :: rest) best bw
          = if u.truthy ∧ bw < 0 then srcsetLoop rest u 0
            else srcsetLoop rest best bw)
    ∧ (∀ kvs rest best bw u, List.lookup "src" kvs = some u →
        List.lookup "width" kvs = some (.floatv 0) →
        srcsetLoop (.obj kvs :: rest) best bw
          = if u.truthy ∧ bw < 0 then srcsetLoop rest u 0
            else srcsetLoop rest best bw)
    ∧ (∀ kvs rest best bw w, List.lookup "width" kvs = some w →
        w.truthy → w.asInt = none →
        srcsetLoop (.obj kvs :: rest) best bw = srcsetLoop rest best bw)
    ∧ (∀ kvs rest best bw u, List.lookup "src" kvs = some u →
        ¬ u.truthy →
        srcsetLoop (.obj kvs :: rest) best bw = srcsetLoop rest best bw)
    ∧ (∀ kvs rest best bw u n, List.lookup "src" kvs = some u →
        List.lookup "width" kvs = some (.intv n) → ¬ bw < n →
        srcsetLoop (.obj kvs :: rest) best bw = srcsetLoop rest best bw)
    ∧ srcsetLoop [cleanVariant ("a", 300), cleanVariant ("b", 300)] .null (-1)
        = .ok (.str "a", 300) := by
  refine ⟨?_, ?_, ?_, ?_, ?_, rfl⟩
  · intro kvs rest best bw u hsrc hw
    rw [srcsetLoop]
    by_cases ht : u.truthy <;> by_cases hbw : bw < 0 <;>
      simp [JVal.get, bind, Except.bind, hsrc, hw, orJ_null, JVal.asInt,
        ht, hbw]
  · intro kvs rest best bw u hsrc hw
    have : orJ (.floatv 0) (.intv 0) = JVal.intv 0 := by
      simp [orJ, JVal.truthy]
    rw [srcsetLoop]
    by_cases ht : u.truthy <;> by_cases hbw : bw < 0 <;>
      simp [JVal.get, bind, Except.bind, hsrc, hw, this, JVal.asInt, ht, hbw]
  · intro kvs rest best bw w hw htr hint
    rw [srcsetLoop]
    cases hsrc : ((List.lookup "src" kvs).getD JVal.null).truthy <;>
      simp [JVal.get, bind, Except.bind, hw, orJ_truthy _ _ htr, hint, hsrc]
  · intro kvs rest best bw u hsrc hu
    rw [srcsetLoop]
    rcases hint : (orJ ((List.lookup "width" kvs).getD JVal.null)
        (.intv 0)).asInt with _ | n <;>
      simp [JVal.get, bind, Except.bind, hsrc, hint, hu]
  · intro kvs rest best bw u n hsrc hw hbw
    rw [srcsetLoop]
    cases ht : u.truthy <;>
      simp [JVal.get, bind, Except.bind, hsrc, hw, orJ_intv, JVal.asInt,
        ht, hbw]

/-- Concrete run of C10 (amended): a variant whose width is the numeric
string `"300"` (truthy, not an int) is skipped. -/
theorem claim_C10_srcset_eligibility_witness :
    srcsetLoop [.obj [("src", JVal.str "x"), ("width", JVal.str "300")]]
        .null (-1)
      = srcsetLoop [] .null (-1) :=
  claim_C10_srcset_eligibility.2.2.1
    [("src", JVal.str "x"), ("width", JVal.str "300")] [] .null (-1)
    (JVal.str "300") rfl (by decide) rfl

/-! ### C7: the scrape fallback -/

theorem ddgStage2_trace (net : Net) (q vqd : String) (tr : List Ev) :
    (ddgStage2 net q vqd tr).2 = tr ++ [Ev.get (apiReq q vqd)] := by
  rw [ddgStage2]
  cases net tr (apiReq q vqd) with
  | none => rfl
  | some r2 =>
    by_cases h2 : r2.status ≠ 200
    · simp [h2]
    · rcases hjs : r2.js with _ | d <;> simp [h2, hjs]

/-- C7: the scrape fallback returns absence immediately — without the second
request — when the search-page fetch raises or is non-200 or no token
pattern matches; otherwise it makes exactly one unretried fetch of the
image-JSON endpoint with the extracted token and the identically escaped
query, and returns the first results entry's `image` field, falling back to
its `thumbnail` field, or absence when the results list is empty or the
fetch or parse fails. -/
theorem claim_C7_scrape_fallback (net : Net) (query : String) (tr : List Ev) :
    (net tr (searchReq (pyQuote query)) = none →
        get_duckduckgo_image net query tr
          = (.null, tr ++ [Ev.get (searchReq (pyQuote query))]))
    ∧ (∀ r1, net tr (searchReq (pyQuote query)) = some r1 →
        r1.status ≠ 200 →
        get_duckduckgo_image net query tr
          = (.null, tr ++ [Ev.get (searchReq (pyQuote query))]))
    ∧ (∀ r1, net tr (searchReq (pyQuote query)) = some r1 →
        r1.status = 200 → extractVqd r1.text = none →
        get_duckduckgo_image net query tr
          = (.null, tr ++ [Ev.get (searchReq (pyQuote query))]))
    ∧ (∀ r1 vqd, net tr (searchReq (pyQuote query)) = some r1 →
        r1.status = 200 → extractVqd r1.text = some vqd →
        get_duckduckgo_image net query tr
            = ddgStage2 net (pyQuote query) vqd
                (tr ++ [Ev.get (searchReq (pyQuote query))])
          ∧ (get_duckduckgo_image net query tr).2
            = tr ++ [Ev.get (searchReq (pyQuote query)),
                Ev.get (apiReq (pyQuote query) vqd)])
    ∧ (∀ q vqd tr2 r2 d, net tr2 (apiReq q vqd) = some r2 →
        r2.status = 200 → r2.js = some d →
        (ddgStage2 net q vqd tr2).1 = catchAll (ddgParse d))
    ∧ (∀ kvs, (List.lookup "results" kvs = none
          ∨ List.lookup "results" kvs = some (.arr [])) →
        ddgParse (.obj kvs) = .ok .null)
    ∧ (∀ kvs fkvs rest u,
        List.lookup "results" kvs = some (.arr (.obj fkvs :: rest)) →
        List.lookup "image" fkvs = some u → u.truthy →
        ddgParse (.obj kvs) = .ok u)
    ∧ (∀ kvs fkvs rest u,
        List.lookup "results" kvs = some (.arr (.obj fkvs :: rest)) →
        List.lookup "image" fkvs = none →
        List.lookup "thumbnail" fkvs = some u →
        ddgParse (.obj kvs) = .ok u) := by
  refine ⟨?_, ?_, ?_, ?_, ?_, ?_, ?_, ?_⟩
  · intro h
    rw [get_duckduckgo_image, h]
  · intro r1 h h200
    rw [get_duckduckgo_image, h]
    simp [h200]
  · intro r1 h h200 hv
    rw [get_duckduckgo_image, h]
    simp [h200, hv]
  · intro r1 vqd h h200 hv
    have hmain : get_duckduckgo_image net query tr
        = ddgStage2 net (pyQuote query) vqd
            (tr ++ [Ev.get (searchReq (pyQuote query))]) := by
      rw [get_duckduckgo_image, h]
      simp [h200, hv]
    refine ⟨hmain, ?_⟩
    rw [hmain, ddgStage2_trace, List.append_assoc]
    rfl
  · intro q vqd tr2 r2 d h h200 hjs
    rw [ddgStage2, h]
    simp [h200, hjs]
  · intro kvs h
    rcases h with h | h <;>
      simp [ddgParse, bind, Except.bind, pure, Except.pure, JVal.get, h,
        orJ, JVal.truthy]
  · intro kvs fkvs rest u hres him hu
    have harr : (JVal.arr (JVal.obj fkvs :: rest)).truthy = true := by
      simp [JVal.truthy]
    simp [ddgParse, bind, Except.bind, pure, Except.pure, JVal.get, hres,
      orJ_truthy _ _ harr, harr, JVal.index0, him, hu]
  · intro kvs fkvs rest u hres him hth
    have harr : (JVal.arr (JVal.obj fkvs :: rest)).truthy = true := by
      simp [JVal.truthy]
    simp [ddgParse, bind, Except.bind, pure, Except.pure, JVal.get, hres,
      orJ_truthy _ _ harr, harr, JVal.index0, him, hth, truthy_null]

/-- Concrete run of C7: the search page answers 200 with a body matching the
first token pattern, and the resolver proceeds to exactly one image-JSON
fetch with that token. -/
def netSearchToken : Net := fun _ rq =>
  if rq = searchReq (pyQuote "duck") then
    some ⟨200, "stuff \"vqd\":\"tok-1\" stuff", none⟩
  else none

theorem claim_C7_scrape_fallback_witness :
    get_duckduckgo_image netSearchToken "duck" []
        = ddgStage2 netSearchToken (pyQuote "duck") "tok-1"
            [Ev.get (searchReq (pyQuote "duck"))]
      ∧ (get_duckduckgo_image netSearchToken "duck" []).2
        = [Ev.get (searchReq (pyQuote "duck")),
            Ev.get (apiReq (pyQuote "duck") "tok-1")] :=
  (claim_C7_scrape_fallback netSearchToken "duck" []).2.2.2.1
    ⟨200, "stuff \"vqd\":\"tok-1\" stuff", none⟩ "tok-1" rfl rfl rfl

/-! ### C1: top-level precedence -/

/-- C1: `get_bird_image` first invokes the Wikipedia resolver and returns
its result unchanged whenever that result is truthy, invoking the scrape
fallback only when it returns absence; in particular, when the ja summary
lookup yields a truthy thumbnail, that value is returned after exactly one
GET — no media-list, fallback-language or scrape request happens. -/
theorem claim_C1_precedence (net : Net) (name : String) :
    (∀ v tr1, get_wikipedia_image net name [] = (.ok v, tr1) → v.truthy →
        get_bird_image net name [] = (.ok v, tr1))
    ∧ (∀ tr1, get_wikipedia_image net name [] = (.ok .null, tr1) →
        get_bird_image net name []
          = (.ok (get_duckduckgo_image net name tr1).1,
              (get_duckduckgo_image net name tr1).2))
    ∧ (∀ r d v, net [] (summaryReq "ja" name) = some r → r.status = 200 →
        r.js = some d → summaryExtract d = .ok v → v.truthy →
        get_bird_image net name []
          = (.ok v, [Ev.get (summaryReq "ja" name)])) := by
  refine ⟨?_, ?_, ?_⟩
  · intro v tr1 h hv
    rw [get_bird_image, h]
    simp [hv]
  · intro tr1 h
    rw [get_bird_image, h]
    simp [truthy_null]
  · intro r d v hn h200 hjs hex hv
    have hreq : _request_with_retries net (summaryReq "ja" name) 2 []
        = (some r, [Ev.get (summaryReq "ja" name)]) := by
      rw [_request_with_retries, List.range_succ_eq_map, retryGo, hn]
      simp [h200]
    have hsum : _get_from_summary net name "ja" []
        = (.ok v, [Ev.get (summaryReq "ja" name)]) := by
      rw [_get_from_summary, hreq]
      simp [hjs, hex]
    have hlang : _get_image_from_lang net name "ja" []
        = (.ok v, [Ev.get (summaryReq "ja" name)]) := by
      rw [_get_image_from_lang, hsum]
      simp [hv]
    have hwiki : get_wikipedia_image net name []
        = (.ok v, [Ev.get (summaryReq "ja" name)]) := by
      rw [get_wikipedia_image, hlang]
      simp [hv]
    rw [get_bird_image, hwiki]
    simp [hv]

/-- Concrete run of C1: the ja summary endpoint yields a thumbnail and the
resolution ends after that single GET. -/
def netThumbJa : Net := fun _ rq =>
  if rq = summaryReq "ja" "Kingfisher" then
    some ⟨200, "",
      some (.obj [("thumbnail", .obj [("source", .str "http://img/t.jpg")])])⟩
  else none

theorem claim_C1_precedence_witness :
    get_bird_image netThumbJa "Kingfisher" []
      = (.ok (.str "http://img/t.jpg"),
          [Ev.get (summaryReq "ja" "Kingfisher")]) :=
  (claim_C1_precedence netThumbJa "Kingfisher").2.2
    ⟨200, "",
      some (.obj [("thumbnail", .obj [("source", .str "http://img/t.jpg")])])⟩
    (.obj [("thumbnail", .obj [("source", .str "http://img/t.jpg")])])
    (.str "http://img/t.jpg") rfl rfl rfl rfl (by decide)

/-! ### C3: language order in `get_wikipedia_image` -/

/-- C3: the Wikipedia resolver tries "ja" then "en" with the species name
unmodified as the title, returns the first truthy per-language result
without querying the later language, and returns absence exactly when both
languages miss; when ja misses both sub-strategies and the en summary hits,
the en result is returned and the scrape path is not invoked. -/
theorem claim_C3_language_order (net : Net) (name : String) :
    (∀ v tr1, _get_image_from_lang net name "ja" [] = (.ok v, tr1) →
        v.truthy → get_wikipedia_image net name [] = (.ok v, tr1))
    ∧ (∀ v tr1 w tr2, _get_image_from_lang net name "ja" [] = (.ok v, tr1) →
        ¬ v.truthy → _get_image_from_lang net name "en" tr1 = (.ok w, tr2) →
        get_wikipedia_image net name []
          = (if w.truthy then (.ok w, tr2) else (.ok .null, tr2)))
    ∧ (∀ tr2, get_wikipedia_image net name [] = (.ok .null, tr2) →
        ∃ v tr1 w, _get_image_from_lang net name "ja" [] = (.ok v, tr1)
          ∧ ¬ v.truthy
          ∧ _get_image_from_lang net name "en" tr1 = (.ok w, tr2)
          ∧ ¬ w.truthy)
    ∧ (∀ v tr1 r d w, _get_image_from_lang net name "ja" [] = (.ok v, tr1) →
        ¬ v.truthy → net tr1 (summaryReq "en" name) = some r →
        r.status = 200 → r.js = some d → summaryExtract d = .ok w →
        w.truthy →
        get_wikipedia_image net name []
            = (.ok w, tr1 ++ [Ev.get (summaryReq "en" name)])
          ∧ get_bird_image net name []
            = (.ok w, tr1 ++ [Ev.get (summaryReq "en" name)])) := by
  refine ⟨?_, ?_, ?_, ?_⟩
  · intro v tr1 h hv
    rw [get_wikipedia_image, h]
    simp [hv]
  · intro v tr1 w tr2 hja hv hen
    rw [get_wikipedia_image, hja]
    simp only [hv, Bool.false_eq_true, if_false]
    rw [hen]
  · intro tr2 hw
    rw [get_wikipedia_image] at hw
    rcases hja : _get_image_from_lang net name "ja" [] with ⟨a, tr1⟩
    rw [hja] at hw
    cases a with
    | error e => simp at hw
    | ok v =>
      by_cases hv : v.truthy
      · simp only [hv, if_true] at hw
        have : v = JVal.null := by
          have := congrArg Prod.fst hw
          simpa using this
        rw [this] at hv
        simp [truthy_null] at hv
      · simp only [hv, Bool.false_eq_true, if_false] at hw
        rcases hen : _get_image_from_lang net name "en" tr1 with ⟨b, tr2'⟩
        rw [hen] at hw
        cases b with
        | error e => simp at hw
        | ok w =>
          by_cases hwt : w.truthy
          · simp only [hwt, if_true] at hw
            have : w = JVal.null := by
              have := congrArg Prod.fst hw
              simpa using this
            rw [this] at hwt
            simp [truthy_null] at hwt
          · simp only [hwt, Bool.false_eq_true, if_false] at hw
            have htr : tr2' = tr2 := by
              have := congrArg Prod.snd hw
              simpa using this
            exact ⟨v, tr1, w, rfl, hv, by rw [hen, htr], hwt⟩
  · intro v tr1 r d w hja hv hn h200 hjs hex hw
    have hreq : _request_with_retries net (summaryReq "en" name) 2 tr1
        = (some r, tr1 ++ [Ev.get (summaryReq "en" name)]) := by
      rw [_request_with_retries, List.range_succ_eq_map, retryGo, hn]
      simp [h200]
    have hsum : _get_from_summary net name "en" tr1
        = (.ok w, tr1 ++ [Ev.get (summaryReq "en" name)]) := by
      rw [_get_from_summary, hreq]
      simp [hjs, hex]
    have hlang : _get_image_from_lang net name "en" tr1
        = (.ok w, tr1 ++ [Ev.get (summaryReq "en" name)]) := by
      rw [_get_image_from_lang, hsum]
      simp [hw]
    have hwiki : get_wikipedia_image net name []
        = (.ok w, tr1 ++ [Ev.get (summaryReq "en" name)]) := by
      rw [get_wikipedia_image, hja]
      simp only [hv, Bool.false_eq_true, if_false]
      rw [hlang]
      simp [hw]
    refine ⟨hwiki, ?_⟩
    rw [get_bird_image, hwiki]
    simp [hw]

/-- Concrete run of C3: every ja request fails, the en summary yields a
thumbnail, and the en result is returned without any scrape request. -/
def netEnOnly : Net := fun _ rq =>
  if rq = summaryReq "en" "Robin" then
    some ⟨200, "",
      some (.obj [("thumbnail", .obj [("source", .str "http://img/r.jpg")])])⟩
  else none

theorem claim_C3_language_order_witness :
    get_wikipedia_image netEnOnly "Robin" []
      = (.ok (.str "http://img/r.jpg"),
          (_get_image_from_lang netEnOnly "Robin" "ja" []).2
            ++ [Ev.get (summaryReq "en" "Robin")]) :=
  ((claim_C3_language_order netEnOnly "Robin").2.2.2 .null
      (_get_image_from_lang netEnOnly "Robin" "ja" []).2
      ⟨200, "",
        some (.obj [("thumbnail", .obj [("source", .str "http://img/r.jpg")])])⟩
      (.obj [("thumbnail", .obj [("source", .str "http://img/r.jpg")])])
      (.str "http://img/r.jpg")
      rfl (by decide) rfl rfl rfl rfl (by decide)).1

/-! ### C2: exception behavior of the whole chain -/

/-- A network whose every response is a 200 whose JSON body is the array
`[1]` — a perfectly valid JSON document that `res.json()` parses fine. -/
def netArrayBody : Net := fun _ _ => some ⟨200, "", some (.arr [.intv 1])⟩

/-- Counterexample to C2 as stated: on a 200 summary response whose parsed
JSON body is an array, `data.get("thumbnail")` raises `AttributeError`,
which escapes `_get_from_summary`, `get_wikipedia_image` and
`get_bird_image`: the resolver raises instead of returning absence. -/
theorem claim_C2_counterexample :
    get_bird_image netArrayBody "X" []
      = (.error (), [Ev.get (summaryReq "ja" "X")]) := rfl

/-- Is the value a Python dict? -/
def isObjB : JVal → Bool
  | .obj _ => true
  | _ => false

/-- The keyed field is absent, falsy, or a dict — the shapes on which
`(d.get(k) or {}).get(...)` cannot raise. -/
def wfField (kvs : List (String × JVal)) (k : String) : Bool :=
  match kvs.lookup k with
  | none => true
  | some v => !v.truthy || isObjB v

/-- A srcset value that is safe to iterate calling `.get` on each element:
falsy, or a list of dicts. -/
def wfSrcset : JVal → Bool
  | .arr xs => xs.all isObjB
  | v => !v.truthy

/-- A media item on which the item body cannot raise: non-dicts are skipped
by the code itself; a dict needs a safe `original` and a safe `srcset`. -/
def wfItem : JVal → Bool
  | .obj kvs =>
    wfField kvs "original" &&
      (match kvs.lookup "srcset" with
       | none => true
       | some v => wfSrcset v)
  | _ => true

/-- An items value that is safe to iterate with safe elements. -/
def wfItems : JVal → Bool
  | .arr xs => xs.all wfItem
  | .obj _ => true
  | .str _ => true
  | v => !v.truthy

/-- A parsed body on which the summary extraction cannot raise. -/
def wfSummaryBody : JVal → Bool
  | .obj kvs => wfField kvs "thumbnail" && wfField kvs "originalimage"
  | _ => false

/-- A parsed body on which the media-list extraction cannot raise. -/
def wfMediaBody : JVal → Bool
  | .obj kvs =>
    match kvs.lookup "items" with
    | none => true
    | some v => wfItems v
  | _ => false

/-- A parsed body of the expected shape for both Wikipedia endpoints. -/
def wfBody (v : JVal) : Bool := wfSummaryBody v && wfMediaBody v

/-- Every parsed body the network can ever deliver is well-shaped. -/
def WfNet (net : Net) : Prop :=
  ∀ tr rq r, net tr rq = some r → ∀ d, r.js = some d → wfBody d = true

theorem wfField_getD (kvs : List (String × JVal)) (k : String)
    (h : wfField kvs k = true) :
    (!((kvs.lookup k).getD .null).truthy
      || isObjB ((kvs.lookup k).getD .null)) = true := by
  unfold wfField at h
  cases hl : kvs.lookup k with
  | none => simp [hl, JVal.truthy, isObjB]
  | some v => rw [hl] at h; simpa using h

theorem JVal.get_obj (kvs : List (String × JVal)) (k : String) :
    JVal.get (.obj kvs) k = .ok ((kvs.lookup k).getD .null) := rfl

theorem orJ_obj_get (t : JVal) (k : String)
    (h : (!t.truthy || isObjB t) = true) :
    ∃ u, (orJ t (.obj [])).get k = .ok u := by
  by_cases ht : t.truthy
  · cases t with
    | obj kvs =>
      exact ⟨(kvs.lookup k).getD .null, by simp [orJ, ht, JVal.get_obj]⟩
    | null => simp [JVal.truthy] at ht
    | boolv b => simp [ht, isObjB] at h
    | intv n => simp [ht, isObjB] at h
    | floatv q => simp [ht, isObjB] at h
    | str s => simp [ht, isObjB] at h
    | arr xs => simp [ht, isObjB] at h
  · exact ⟨.null, by simp [orJ, ht, JVal.get]⟩

theorem summaryExtract_ok (d : JVal) (h : wfSummaryBody d = true) :
    ∃ v, summaryExtract d = .ok v := by
  cases d with
  | obj kvs =>
    simp only [wfSummaryBody, Bool.and_eq_true] at h
    obtain ⟨u1, hu1⟩ := orJ_obj_get _ "source" (wfField_getD kvs "thumbnail" h.1)
    obtain ⟨u2, hu2⟩ :=
      orJ_obj_get _ "source" (wfField_getD kvs "originalimage" h.2)
    by_cases ht : u1.truthy
    · exact ⟨u1, by simp [summaryExtract, bind, Except.bind, pure, Except.pure,
        JVal.get_obj, hu1, ht]⟩
    · exact ⟨u2, by simp [summaryExtract, bind, Except.bind, pure, Except.pure,
        JVal.get_obj, hu1, hu2, ht]⟩
  | null => simp [wfSummaryBody] at h
  | boolv b => simp [wfSummaryBody] at h
  | intv n => simp [wfSummaryBody] at h
  | floatv q => simp [wfSummaryBody] at h
  | str s => simp [wfSummaryBody] at h
  | arr xs => simp [wfSummaryBody] at h

theorem srcsetLoop_ok (xs : List JVal) :
    ∀ best bw, (∀ s ∈ xs, isObjB s = true) →
      ∃ out, srcsetLoop xs best bw = .ok out := by
  induction xs with
  | nil => intro best bw _; exact ⟨(best, bw), rfl⟩
  | cons s rest ih =>
    intro best bw h
    have hs := h s (by simp)
    have hrest : ∀ t ∈ rest, isObjB t = true :=
      fun t ht => h t (by simp [ht])
    cases s with
    | obj kvs =>
      rw [srcsetLoop]
      simp only [JVal.get, bind, Except.bind]
      cases h1 : ((List.lookup "src" kvs).getD JVal.null).truthy with
      | false =>
        cases h2 : (orJ ((List.lookup "width" kvs).getD JVal.null)
            (.intv 0)).asInt with
        | none => exact ih best bw hrest
        | some n => exact ih best bw hrest
      | true =>
        cases h2 : (orJ ((List.lookup "width" kvs).getD JVal.null)
            (.intv 0)).asInt with
        | none => exact ih best bw hrest
        | some n =>
          by_cases hlt : bw < n
          · simp only [hlt, if_true]
            exact ih _ n hrest
          · simp only [hlt, if_false]
            exact ih best bw hrest
    | null => simp [isObjB] at hs
    | boolv b => simp [isObjB] at hs
    | intv n => simp [isObjB] at hs
    | floatv q => simp [isObjB] at hs
    | str s2 => simp [isObjB] at hs
    | arr l => simp [isObjB] at hs

theorem iterSrcset_ok (v : JVal) (h : wfSrcset v = true) :
    ∃ xs, (orJ v (.arr [])).iter = .ok xs ∧ ∀ s ∈ xs, isObjB s = true := by
  by_cases ht : v.truthy
  · cases v with
    | arr xs =>
      refine ⟨xs, by simp [orJ, ht, JVal.iter], ?_⟩
      intro s hs
      simp only [wfSrcset, List.all_eq_true] at h
      exact h s hs
    | null => simp [JVal.truthy] at ht
    | boolv b => simp [wfSrcset, ht] at h
    | intv n => simp [wfSrcset, ht] at h
    | floatv q => simp [wfSrcset, ht] at h
    | str s => simp [wfSrcset, ht] at h
    | obj kvs => simp [wfSrcset, ht] at h
  · exact ⟨[], by simp [orJ, ht, JVal.iter], by simp⟩

theorem iterItems_ok (v : JVal) (h : wfItems v = true) :
    ∃ xs, (orJ v (.arr [])).iter = .ok xs ∧ ∀ t ∈ xs, wfItem t = true := by
  by_cases ht : v.truthy
  · cases v with
    | arr xs =>
      refine ⟨xs, by simp [orJ, ht, JVal.iter], ?_⟩
      intro t htm
      simp only [wfItems, List.all_eq_true] at h
      exact h t htm
    | obj kvs =>
      refine ⟨kvs.map fun kv => .str kv.1, by simp [orJ, ht, JVal.iter], ?_⟩
      intro t htm
      simp only [List.mem_map] at htm
      obtain ⟨kv, _, rfl⟩ := htm
      rfl
    | str s =>
      refine ⟨s.data.map fun c => .str (String.mk [c]),
        by simp [orJ, ht, JVal.iter], ?_⟩
      intro t htm
      simp only [List.mem_map] at htm
      obtain ⟨c, _, rfl⟩ := htm
      rfl
    | null => simp [JVal.truthy] at ht
    | boolv b => simp [wfItems, ht] at h
    | intv n => simp [wfItems, ht] at h
    | floatv q => simp [wfItems, ht] at h
  · exact ⟨[], by simp [orJ, ht, JVal.iter], by simp⟩

theorem mediaItemsLoop_ok (items : List JVal) :
    (∀ item ∈ items, wfItem item = true) →
      ∃ v, mediaItemsLoop items = .ok v := by
  induction items with
  | nil => intro _; exact ⟨.null, rfl⟩
  | cons item rest ih =>
    intro h
    have hrest : ∀ t ∈ rest, wfItem t = true :=
      fun t ht => h t (by simp [ht])
    have hitem := h item (by simp)
    cases item with
    | obj kvs =>
      simp only [wfItem, Bool.and_eq_true] at hitem
      obtain ⟨horig, hsrcset⟩ := hitem
      rw [mediaItemsLoop]
      simp only [JVal.get_obj, bind, Except.bind]
      by_cases hty : isImageTy ((List.lookup "type" kvs).getD JVal.null) = true
      · simp only [hty, Bool.not_true, Bool.false_eq_true, if_false]
        obtain ⟨u1, hu1⟩ :=
          orJ_obj_get _ "source" (wfField_getD kvs "original" horig)
        rw [hu1]
        by_cases hu1t : u1.truthy
        · exact ⟨u1, by simp [hu1t, pure, Except.pure]⟩
        · simp only [hu1t, Bool.false_eq_true, if_false]
          have hwf : wfSrcset ((List.lookup "srcset" kvs).getD JVal.null)
              = true := by
            cases hl : List.lookup "srcset" kvs with
            | none => simp [wfSrcset, JVal.truthy]
            | some v => rw [hl] at hsrcset; simpa using hsrcset
          obtain ⟨xs, hiter, hxs⟩ := iterSrcset_ok _ hwf
          obtain ⟨out, hout⟩ := srcsetLoop_ok xs .null (-1) hxs
          by_cases hbt : out.1.truthy
          · exact ⟨out.1, by simp [hiter, hout, hbt, pure, Except.pure]⟩
          · obtain ⟨v, hv⟩ := ih hrest
            exact ⟨v, by simp [hiter, hout, hbt, pure, Except.pure, hv]⟩
      · simp only [Bool.not_eq_true] at hty
        simp only [hty, Bool.not_false, if_true]
        exact ih hrest
    | null => exact ih hrest
    | boolv b => exact ih hrest
    | intv n => exact ih hrest
    | floatv q => exact ih hrest
    | str s => exact ih hrest
    | arr l => exact ih hrest

theorem mediaExtract_ok (d : JVal) (h : wfMediaBody d = true) :
    ∃ v, mediaExtract d = .ok v := by
  cases d with
  | obj kvs =>
    have hwf : wfItems ((List.lookup "items" kvs).getD JVal.null) = true := by
      simp only [wfMediaBody] at h
      cases hl : List.lookup "items" kvs with
      | none => simp [wfItems, JVal.truthy]
      | some v => rw [hl] at h; simpa using h
    obtain ⟨xs, hiter, hxs⟩ := iterItems_ok _ hwf
    obtain ⟨v, hloop⟩ := mediaItemsLoop_ok xs hxs
    exact ⟨v, by simp [mediaExtract, bind, Except.bind, JVal.get_obj, hiter,
      hloop]⟩
  | null => simp [wfMediaBody] at h
  | boolv b => simp [wfMediaBody] at h
  | intv n => simp [wfMediaBody] at h
  | floatv q => simp [wfMediaBody] at h
  | str s => simp [wfMediaBody] at h
  | arr xs => simp [wfMediaBody] at h

theorem retryGo_some_net (net : Net) (rq : Req) (k : Nat) :
    ∀ attempts tr r, (retryGo net rq k attempts tr).1 = some r →
      ∃ tr', net tr' rq = some r := by
  intro attempts
  induction attempts with
  | nil => intro tr r h; simp [retryGo] at h
  | cons a rest ih =>
    intro tr r h
    rw [retryGo] at h
    cases hn : net tr rq with
    | none => rw [hn] at h; exact ih _ r h
    | some r0 =>
      rw [hn] at h
      by_cases hs : r0.status = 200
      · simp [hs] at h
        exact ⟨tr, by rw [hn, h]⟩
      · simp only [hs, if_false] at h
        exact ih _ r h

theorem getFromSummary_ok (net : Net) (H : WfNet net) (title lang : String)
    (tr : List Ev) :
    ∃ v tr1, _get_from_summary net title lang tr = (.ok v, tr1) := by
  rcases hreq : _request_with_retries net (summaryReq lang title) 2 tr
    with ⟨res, tr1⟩
  cases res with
  | none => exact ⟨.null, tr1, by rw [_get_from_summary, hreq]⟩
  | some r =>
    cases hjs : r.js with
    | none => exact ⟨.null, tr1, by rw [_get_from_summary, hreq]; simp [hjs]⟩
    | some d =>
      have hsome : ∃ tr', net tr' (summaryReq lang title) = some r :=
        retryGo_some_net net _ 2 _ tr r
          (by rw [show retryGo net (summaryReq lang title) 2
              (List.range 3) tr = _request_with_retries net
              (summaryReq lang title) 2 tr from rfl, hreq])
      obtain ⟨tr', hnet⟩ := hsome
      have hwf : wfBody d = true := H tr' _ r hnet d hjs
      obtain ⟨v, hv⟩ := summaryExtract_ok d
        (by simp only [wfBody, Bool.and_eq_true] at hwf; exact hwf.1)
      exact ⟨v, tr1, by rw [_get_from_summary, hreq]; simp [hjs, hv]⟩

theorem getFromMediaList_ok (net : Net) (H : WfNet net) (title lang : String)
    (tr : List Ev) :
    ∃ v tr1, _get_from_media_list net title lang tr = (.ok v, tr1) := by
  rcases hreq : _request_with_retries net (mediaListReq lang title) 2 tr
    with ⟨res, tr1⟩
  cases res with
  | none => exact ⟨.null, tr1, by rw [_get_from_media_list, hreq]⟩
  | some r =>
    cases hjs : r.js with
    | none =>
      exact ⟨.null, tr1, by rw [_get_from_media_list, hreq]; simp [hjs]⟩
    | some d =>
      have hsome : ∃ tr', net tr' (mediaListReq lang title) = some r :=
        retryGo_some_net net _ 2 _ tr r
          (by rw [show retryGo net (mediaListReq lang title) 2
              (List.range 3) tr = _request_with_retries net
              (mediaListReq lang title) 2 tr from rfl, hreq])
      obtain ⟨tr', hnet⟩ := hsome
      have hwf : wfBody d = true := H tr' _ r hnet d hjs
      obtain ⟨v, hv⟩ := mediaExtract_ok d
        (by simp only [wfBody, Bool.and_eq_true] at hwf; exact hwf.2)
      exact ⟨v, tr1, by rw [_get_from_media_list, hreq]; simp [hjs, hv]⟩

theorem getImageFromLang_ok (net : Net) (H : WfNet net) (title lang : String)
    (tr : List Ev) :
    ∃ v tr1, _get_image_from_lang net title lang tr = (.ok v, tr1) := by
  obtain ⟨v, tr1, hsum⟩ := getFromSummary_ok net H title lang tr
  by_cases hv : v.truthy
  · exact ⟨v, tr1, by rw [_get_image_from_lang, hsum]; simp [hv]⟩
  · obtain ⟨w, tr2, hmedia⟩ := getFromMediaList_ok net H title lang tr1
    exact ⟨w, tr2, by rw [_get_image_from_lang, hsum]; simp [hv, hmedia]⟩

/-- C2 (amended): for every species name, initial trace and upstream
behavior — any HTTP status, transport failure or JSON-parse failure — the
resolver returns a value (an image URL or the absence value) and never
raises, provided every successfully parsed body is a JSON object whose
special fields have the expected shapes (`wfBody`); outside that shape
(e.g. a 200 whose JSON body is an array) the resolver can raise, see the
counterexample. -/
theorem claim_C2_soft_miss_wf (net : Net) (name : String) (tr : List Ev)
    (H : WfNet net) :
    ∃ v tr1, get_bird_image net name tr = (.ok v, tr1) := by
  obtain ⟨v, tr1, hja⟩ := getImageFromLang_ok net H name "ja" tr
  by_cases hv : v.truthy
  · refine ⟨v, tr1, ?_⟩
    rw [get_bird_image, get_wikipedia_image, hja]
    simp [hv]
  · obtain ⟨w, tr2, hen⟩ := getImageFromLang_ok net H name "en" tr1
    by_cases hw : w.truthy
    · refine ⟨w, tr2, ?_⟩
      rw [get_bird_image, get_wikipedia_image, hja]
      simp only [hv, Bool.false_eq_true, if_false]
      rw [hen]
      simp [hw]
    · refine ⟨(get_duckduckgo_image net name tr2).1,
        (get_duckduckgo_image net name tr2).2, ?_⟩
      rw [get_bird_image, get_wikipedia_image, hja]
      simp only [hv, Bool.false_eq_true, if_false]
      rw [hen]
      simp [hw, truthy_null]

theorem claim_C2_soft_miss_wf_witness :
    ∃ v tr1, get_bird_image netAllFail "X" [] = (.ok v, tr1) :=
  claim_C2_soft_miss_wf netAllFail "X" []
    (fun _ _ _ h => Option.noConfusion h)

/-! ### C9: statelessness across calls -/

/-- A network oracle whose answers do not depend on the event history —
"unchanged upstream state" in the claim's phrasing. -/
def HistoryFree (net : Net) : Prop :=
  ∀ tr tr' rq, net tr rq = net tr' rq

theorem retryGo_shift (net : Net) (rq : Req) (k : Nat)
    (hfree : HistoryFree net) (attempts : List Nat) :
    ∀ tr, retryGo net rq k attempts tr
      = ((retryGo net rq k attempts []).1,
          tr ++ (retryGo net rq k attempts []).2) := by
  induction attempts with
  | nil => intro tr; simp [retryGo]
  | cons a rest ih =>
    intro tr
    rw [retryGo, retryGo, hfree tr [] rq]
    cases hn : net [] rq with
    | some r =>
      by_cases hs : r.status = 200
      · simp [hs]
      · simp only [hs, if_false]
        by_cases hk : a < k
        · simp only [hk, if_true, List.nil_append]
          rw [ih (tr ++ [Ev.get rq, Ev.sleep (0.4 * ((a : ℚ) + 1))]),
            ih [Ev.get rq, Ev.sleep (0.4 * ((a : ℚ) + 1))]]
          simp
        · simp only [hk, if_false, List.nil_append]
          rw [ih (tr ++ [Ev.get rq]), ih [Ev.get rq]]
          simp
    | none =>
      by_cases hk : a < k
      · simp only [hk, if_true, List.nil_append]
        rw [ih (tr ++ [Ev.get rq, Ev.sleep (0.4 * ((a : ℚ) + 1))]),
          ih [Ev.get rq, Ev.sleep (0.4 * ((a : ℚ) + 1))]]
        simp
      · simp only [hk, if_false, List.nil_append]
        rw [ih (tr ++ [Ev.get rq]), ih [Ev.get rq]]
        simp

theorem request_shift (net : Net) (rq : Req) (k : Nat)
    (hfree : HistoryFree net) :
    ∀ tr, _request_with_retries net rq k tr
      = ((_request_with_retries net rq k []).1,
          tr ++ (_request_with_retries net rq k []).2) :=
  retryGo_shift net rq k hfree (List.range (k + 1))

theorem summary_shift (net : Net) (hfree : HistoryFree net)
    (title lang : String) :
    ∀ tr, _get_from_summary net title lang tr
      = ((_get_from_summary net title lang []).1,
          tr ++ (_get_from_summary net title lang []).2) := by
  intro tr
  rcases h0 : _request_with_retries net (summaryReq lang title) 2 []
    with ⟨res0, t0⟩
  have h1 : _request_with_retries net (summaryReq lang title) 2 tr
      = (res0, tr ++ t0) := by
    rw [request_shift net (summaryReq lang title) 2 hfree tr, h0]
  rw [_get_from_summary, h1, _get_from_summary, h0]
  cases res0 with
  | none => simp
  | some r => rcases hjs : r.js with _ | d <;> simp [hjs]

theorem media_shift (net : Net) (hfree : HistoryFree net)
    (title lang : String) :
    ∀ tr, _get_from_media_list net title lang tr
      = ((_get_from_media_list net title lang []).1,
          tr ++ (_get_from_media_list net title lang []).2) := by
  intro tr
  rcases h0 : _request_with_retries net (mediaListReq lang title) 2 []
    with ⟨res0, t0⟩
  have h1 : _request_with_retries net (mediaListReq lang title) 2 tr
      = (res0, tr ++ t0) := by
    rw [request_shift net (mediaListReq lang title) 2 hfree tr, h0]
  rw [_get_from_media_list, h1, _get_from_media_list, h0]
  cases res0 with
  | none => simp
  | some r => rcases hjs : r.js with _ | d <;> simp [hjs]

theorem lang_shift (net : Net) (hfree : HistoryFree net)
    (title lang : String) :
    ∀ tr, _get_image_from_lang net title lang tr
      = ((_get_image_from_lang net title lang []).1,
          tr ++ (_get_image_from_lang net title lang []).2) := by
  intro tr
  rcases h0 : _get_from_summary net title lang [] with ⟨s0, t0⟩
  have h1 : _get_from_summary net title lang tr = (s0, tr ++ t0) := by
    rw [summary_shift net hfree title lang tr, h0]
  rw [_get_image_from_lang, h1, _get_image_from_lang, h0]
  cases s0 with
  | error e => simp
  | ok v =>
    by_cases hv : v.truthy
    · simp [hv]
    · simp only [hv, Bool.false_eq_true, if_false]
      rw [media_shift net hfree title lang (tr ++ t0),
        media_shift net hfree title lang t0]
      simp [List.append_assoc]

theorem wiki_shift (net : Net) (hfree : HistoryFree net) (name : String) :
    ∀ tr, get_wikipedia_image net name tr
      = ((get_wikipedia_image net name []).1,
          tr ++ (get_wikipedia_image net name []).2) := by
  intro tr
  rcases h0 : _get_image_from_lang net name "ja" [] with ⟨a0, t0⟩
  have h1 : _get_image_from_lang net name "ja" tr = (a0, tr ++ t0) := by
    rw [lang_shift net hfree name "ja" tr, h0]
  rw [get_wikipedia_image, h1, get_wikipedia_image, h0]
  cases a0 with
  | error e => simp
  | ok v =>
    by_cases hv : v.truthy
    · simp [hv]
    · simp only [hv, Bool.false_eq_true, if_false]
      rw [lang_shift net hfree name "en" (tr ++ t0),
        lang_shift net hfree name "en" t0]
      rcases hb : _get_image_from_lang net name "en" [] with ⟨b0, s0⟩
      cases b0 with
      | error e => simp [List.append_assoc]
      | ok w =>
        by_cases hw : w.truthy
        · simp [hw, List.append_assoc]
        · simp [hw, List.append_assoc]

theorem ddgStage2_shift (net : Net) (hfree : HistoryFree net)
    (q vqd : String) :
    ∀ tr, ddgStage2 net q vqd tr
      = ((ddgStage2 net q vqd []).1, tr ++ (ddgStage2 net q vqd []).2) := by
  intro tr
  rw [ddgStage2, ddgStage2, hfree tr [] (apiReq q vqd)]
  cases hn : net [] (apiReq q vqd) with
  | none => simp
  | some r2 =>
    by_cases h2 : r2.status ≠ 200
    · simp [h2]
    · rcases hjs : r2.js with _ | d <;> simp [h2, hjs]

theorem ddg_shift (net : Net) (hfree : HistoryFree net) (query : String) :
    ∀ tr, get_duckduckgo_image net query tr
      = ((get_duckduckgo_image net query []).1,
          tr ++ (get_duckduckgo_image net query []).2) := by
  intro tr
  rw [get_duckduckgo_image, get_duckduckgo_image,
    hfree tr [] (searchReq (pyQuote query))]
  cases hn : net [] (searchReq (pyQuote query)) with
  | none => simp
  | some r1 =>
    by_cases h1 : r1.status ≠ 200
    · simp [h1]
    · rcases hv : extractVqd r1.text with _ | vqd
      · simp [h1, hv]
      · simp only [h1, hv, if_false, List.nil_append]
        rw [ddgStage2_shift net hfree (pyQuote query) vqd
            (tr ++ [Ev.get (searchReq (pyQuote query))]),
          ddgStage2_shift net hfree (pyQuote query) vqd
            [Ev.get (searchReq (pyQuote query))]]
        simp [List.append_assoc]

theorem bird_shift (net : Net) (hfree : HistoryFree net) (name : String) :
    ∀ tr, get_bird_image net name tr
      = ((get_bird_image net name []).1,
          tr ++ (get_bird_image net name []).2) := by
  intro tr
  rcases h0 : get_wikipedia_image net name [] with ⟨a0, t0⟩
  have h1 : get_wikipedia_image net name tr = (a0, tr ++ t0) := by
    rw [wiki_shift net hfree name tr, h0]
  rw [get_bird_image, h1, get_bird_image, h0]
  cases a0 with
  | error e => simp
  | ok v =>
    by_cases hv : v.truthy
    · simp [hv]
    · simp only [hv, Bool.false_eq_true, if_false]
      rw [ddg_shift net hfree name (tr ++ t0), ddg_shift net hfree name t0]
      simp [List.append_assoc]

/-- C9: with unchanged upstream behavior (a history-independent network),
`get_bird_image` returns the same result on every call, whatever events
earlier calls accumulated — the resolver holds no mutable state across
calls; in particular a second call made right after a first one returns the
first call's result. -/
theorem claim_C9_idempotence (net : Net) (name : String)
    (hfree : HistoryFree net) :
    (∀ tr, (get_bird_image net name tr).1 = (get_bird_image net name []).1)
    ∧ (get_bird_image net name ((get_bird_image net name []).2)).1
        = (get_bird_image net name []).1 := by
  have hb := bird_shift net hfree name
  exact ⟨fun tr => by rw [hb tr], by rw [hb ((get_bird_image net name []).2)]⟩

theorem claim_C9_idempotence_witness :
    (get_bird_image netAllFail "X"
        ((get_bird_image netAllFail "X" []).2)).1
      = (get_bird_image netAllFail "X" []).1 :=
  (claim_C9_idempotence netAllFail "X" (fun _ _ _ => rfl)).2

end AudioIntGpt
